import Mathlib

/-!
Verification development for the sort-me.org CLI client (`api_client.go`,
`api_clent.go`, `vscode_extension.go`).  The core under study is the
submission-status resolution pipeline:

* `parseWebSocketMessage` / `convertResultToStatus` / `parseStatusMessage` —
  the result normalizer that maps a raw judge message to a canonical
  `SubmissionStatus`;
* `isFinalStatus` — the terminal-verdict classifier;
* `tryRESTStatus` / `tryGetStatus` / `tryGetSubmissions` /
  `tryGetContestInfo` — the ordered REST endpoint prober;
* `getStatusViaWebSocket` / `GetSubmissionStatus` — the status resolution
  engine (REST first, then a websocket read loop with a rolling deadline).

The embedding models JSON values as an inductive `Json` type and reproduces
Go's `encoding/json.Unmarshal` semantics for the concrete struct shapes the
program decodes into.  The decisive facts of that semantics, reproduced
faithfully here, are:

* object keys with no corresponding struct field are silently ignored
  (no `DisallowUnknownFields` is set anywhere in the source);
* a JSON `null` is a no-op for any target (top-level or field), leaving the
  zero value in place;
* a present key whose value has the wrong type for its field makes the whole
  `Unmarshal` return a non-nil error (the source only ever tests
  `err == nil`);
* JSON numbers reaching an `interface{}` become `float64`; Go's `int(f)`
  conversion truncates toward zero.

Go `int` fields are modelled as `ℤ` (no claim approaches overflow), JSON
numbers as `ℚ`.  An integer-valued `ℚ` is accepted for an `int` field; Go
additionally rejects literals spelled with a fraction part (`"87.0"`), a
purely textual distinction no claim depends on.  Network I/O is modelled by
passing the transport's behaviour in as explicit data: an HTTP outcome per
endpoint, and a list of websocket read events.
-/

namespace SortMe

/-- A decoded JSON document. `obj` keeps the textual field order, which is
the order Go's decoder processes keys in (later duplicates overwrite). -/
inductive Json : Type where
  | null : Json
  | bool (b : Bool) : Json
  | num (q : ℚ) : Json
  | str (s : String) : Json
  | arr (elems : List Json) : Json
  | obj (fields : List (String × Json)) : Json

/-- A raw network payload: `none` models bytes that are not valid JSON at
all (Go's `json.Unmarshal` fails on them for every target shape). -/
abbrev RawBytes := Option Json

/-- Go struct `Config` (config.go): only `SessionToken`/`UserID` matter to
the claims, the remaining fields are carried for completeness. -/
structure Config where
  TelegramToken : String
  SessionToken : String
  UserID : String
  APIBaseURL : String
  Username : String
  CurrentContest : String

/-- Go struct `SubmissionStatus` (api_client.go:40): the canonical record
the whole core operates on. Go `int` becomes `ℤ`. -/
structure SubmissionStatus where
  ID : String
  Status : String
  Result : String
  Score : ℤ
  Time : String
  Memory : String
deriving DecidableEq, Repr

/-- Go struct `WSMessage` (api_client.go:49): the generic-envelope shape.
`Data` is Go `interface{}`; it holds the decoded JSON value (`Json.null`
models Go's untyped nil). Field `Type` is named `Typ` (Lean keyword). -/
structure WSMessage where
  Typ : String
  Data : Json
  Status : String
  Result : String
  Score : ℤ
  Time : String
  Memory : String

/-- Go struct `Subtask` (api_client.go:68). `FailedTests` is `interface{}`. -/
structure Subtask where
  Skipped : Bool
  Points : ℤ
  FailedTests : Json
  WorstTime : ℤ

/-- Go struct `SubmissionResult` (api_client.go:59): the compiled-result
shape. -/
structure SubmissionResult where
  Compiled : Bool
  CompilerLog : String
  ShownVerdict : ℤ
  ShownVerdictText : String
  TotalPoints : ℤ
  Subtasks : List Subtask

/-- Go struct `Submission` (api_client.go:76). -/
structure Submission where
  ID : ℤ
  ShownTest : ℤ
  ShownVerdict : ℤ
  ShownVerdictText : String
  TotalPoints : ℤ
  ContestID : String
  ProblemID : ℤ
  Language : String
  Time : String
  ProblemName : String
  ContestName : String
  SubmitTime : String
  TaskID : ℤ
  TaskName : String
deriving DecidableEq, Repr

/-- Go struct `Task` (api_client.go:110). -/
structure Task where
  ID : ℤ
  Name : String
deriving DecidableEq, Repr

/-- Go struct `ContestInfo` (api_client.go:99). -/
structure ContestInfo where
  ID : ℤ
  Name : String
  Status : String
  Starts : ℤ
  Ends : ℤ
  Registered : Bool
  Tasks : List Task
  Description : String
deriving DecidableEq, Repr

/-! ### Go zero values -/

def zeroSubmissionStatus : SubmissionStatus :=
  { ID := "", Status := "", Result := "", Score := 0, Time := "", Memory := "" }

def zeroWSMessage : WSMessage :=
  { Typ := "", Data := Json.null, Status := "", Result := "", Score := 0,
    Time := "", Memory := "" }

def zeroSubtask : Subtask :=
  { Skipped := false, Points := 0, FailedTests := Json.null, WorstTime := 0 }

def zeroSubmissionResult : SubmissionResult :=
  { Compiled := false, CompilerLog := "", ShownVerdict := 0,
    ShownVerdictText := "", TotalPoints := 0, Subtasks := [] }

def zeroSubmission : Submission :=
  { ID := 0, ShownTest := 0, ShownVerdict := 0, ShownVerdictText := "",
    TotalPoints := 0, ContestID := "", ProblemID := 0, Language := "",
    Time := "", ProblemName := "", ContestName := "", SubmitTime := "",
    TaskID := 0, TaskName := "" }

def zeroTask : Task := { ID := 0, Name := "" }

def zeroContestInfo : ContestInfo :=
  { ID := 0, Name := "", Status := "", Starts := 0, Ends := 0,
    Registered := false, Tasks := [], Description := "" }

/-! ### Go `encoding/json.Unmarshal` semantics for one struct field.

Each helper decodes one present key/value pair into one struct field:
`Json.null` leaves the field untouched (Go: null is a no-op), a
type-compatible value sets it, anything else is an `Unmarshal` error
(`none`). -/

/-- Decode a JSON value into a Go `string` field. -/
def strField {α : Type} (v : Json) (set : String → α) (orig : α) : Option α :=
  match v with
  | Json.str s => some (set s)
  | Json.null => some orig
  | _ => none

/-- Decode a JSON value into a Go `bool` field. -/
def boolField {α : Type} (v : Json) (set : Bool → α) (orig : α) : Option α :=
  match v with
  | Json.bool b => some (set b)
  | Json.null => some orig
  | _ => none

/-- Decode a JSON value into a Go `int`/`int64` field: the number must be
integer-valued. -/
def intField {α : Type} (v : Json) (set : ℤ → α) (orig : α) : Option α :=
  match v with
  | Json.num q => if q.den = 1 then some (set q.num) else none
  | Json.null => some orig
  | _ => none

/-- Process the fields of a JSON object in order, as Go's decoder does:
each pair either updates the struct, is ignored (unknown key), or fails the
whole unmarshal. -/
def applyFields {α : Type} (set : α → String → Json → Option α) :
    α → List (String × Json) → Option α
  | r, [] => some r
  | r, (k, v) :: rest =>
    match set r k v with
    | some r2 => applyFields set r2 rest
    | none => none

/-- Go `json.Unmarshal` of a JSON document into a struct: `null` is a no-op
success on the zero value, an object is decoded field by field, and any
other document shape is an error. -/
def unmarshalJson {α : Type} (set : α → String → Json → Option α) (zero : α) :
    Json → Option α
  | Json.null => some zero
  | Json.obj fields => applyFields set zero fields
  | _ => none

/-- Go `json.Unmarshal` of a raw byte payload (`none` = invalid JSON). -/
def unmarshalRaw {α : Type} (set : α → String → Json → Option α) (zero : α) :
    RawBytes → Option α
  | none => none
  | some j => unmarshalJson set zero j

/-- One field of Go struct `Subtask` (json tags at api_client.go:68-73).
Unknown keys fall through to `some r`, as Go ignores them. -/
def setSubtaskField (r : Subtask) (k : String) (v : Json) : Option Subtask :=
  if k = "skipped" then boolField v (fun b => { r with Skipped := b }) r
  else if k = "points" then intField v (fun n => { r with Points := n }) r
  else if k = "failed_tests" then some { r with FailedTests := v }
  else if k = "worst_time" then intField v (fun n => { r with WorstTime := n }) r
  else some r

def unmarshalSubtask : Json → Option Subtask :=
  unmarshalJson setSubtaskField zeroSubtask

/-- One field of Go struct `SubmissionResult` (json tags at
api_client.go:59-66). A `subtasks` array decodes element-wise; `null`
leaves the nil slice. -/
def setSubmissionResultField (r : SubmissionResult) (k : String) (v : Json) :
    Option SubmissionResult :=
  if k = "compiled" then boolField v (fun b => { r with Compiled := b }) r
  else if k = "compiler_log" then strField v (fun s => { r with CompilerLog := s }) r
  else if k = "shown_verdict" then intField v (fun n => { r with ShownVerdict := n }) r
  else if k = "shown_verdict_text" then strField v (fun s => { r with ShownVerdictText := s }) r
  else if k = "total_points" then intField v (fun n => { r with TotalPoints := n }) r
  else if k = "subtasks" then
    match v with
    | Json.arr xs => (xs.mapM unmarshalSubtask).map (fun l => { r with Subtasks := l })
    | Json.null => some r
    | _ => none
  else some r

def unmarshalSubmissionResult : Json → Option SubmissionResult :=
  unmarshalJson setSubmissionResultField zeroSubmissionResult

/-- One field of Go struct `WSMessage` (json tags at api_client.go:49-57).
`data` is `interface{}`: every JSON value is accepted as-is. -/
def setWSMessageField (r : WSMessage) (k : String) (v : Json) : Option WSMessage :=
  if k = "type" then strField v (fun s => { r with Typ := s }) r
  else if k = "data" then some { r with Data := v }
  else if k = "status" then strField v (fun s => { r with Status := s }) r
  else if k = "result" then strField v (fun s => { r with Result := s }) r
  else if k = "score" then intField v (fun n => { r with Score := n }) r
  else if k = "time" then strField v (fun s => { r with Time := s }) r
  else if k = "memory" then strField v (fun s => { r with Memory := s }) r
  else some r

def unmarshalWSMessage : Json → Option WSMessage :=
  unmarshalJson setWSMessageField zeroWSMessage

/-- One field of Go struct `SubmissionStatus` (json tags at
api_client.go:40-47), used when a REST body is decoded directly. -/
def setSubmissionStatusField (r : SubmissionStatus) (k : String) (v : Json) :
    Option SubmissionStatus :=
  if k = "id" then strField v (fun s => { r with ID := s }) r
  else if k = "status" then strField v (fun s => { r with Status := s }) r
  else if k = "result" then strField v (fun s => { r with Result := s }) r
  else if k = "score" then intField v (fun n => { r with Score := n }) r
  else if k = "time" then strField v (fun s => { r with Time := s }) r
  else if k = "memory" then strField v (fun s => { r with Memory := s }) r
  else some r

def unmarshalSubmissionStatus : RawBytes → Option SubmissionStatus :=
  unmarshalRaw setSubmissionStatusField zeroSubmissionStatus

/-- One field of Go struct `Submission` (json tags at api_client.go:76-91). -/
def setSubmissionField (r : Submission) (k : String) (v : Json) : Option Submission :=
  if k = "id" then intField v (fun n => { r with ID := n }) r
  else if k = "shown_test" then intField v (fun n => { r with ShownTest := n }) r
  else if k = "shown_verdict" then intField v (fun n => { r with ShownVerdict := n }) r
  else if k = "shown_verdict_text" then strField v (fun s => { r with ShownVerdictText := s }) r
  else if k = "total_points" then intField v (fun n => { r with TotalPoints := n }) r
  else if k = "contest_id" then strField v (fun s => { r with ContestID := s }) r
  else if k = "problem_id" then intField v (fun n => { r with ProblemID := n }) r
  else if k = "language" then strField v (fun s => { r with Language := s }) r
  else if k = "time" then strField v (fun s => { r with Time := s }) r
  else if k = "problem_name" then strField v (fun s => { r with ProblemName := s }) r
  else if k = "contest_name" then strField v (fun s => { r with ContestName := s }) r
  else if k = "submit_time" then strField v (fun s => { r with SubmitTime := s }) r
  else if k = "task_id" then intField v (fun n => { r with TaskID := n }) r
  else if k = "task_name" then strField v (fun s => { r with TaskName := s }) r
  else some r

def unmarshalSubmission : Json → Option Submission :=
  unmarshalJson setSubmissionField zeroSubmission

/-- The anonymous response struct of `tryGetSubmissions`
(api_client.go:712-715): `{count, submissions}`. -/
structure SubmissionsResponse where
  Count : ℤ
  Submissions : List Submission

def zeroSubmissionsResponse : SubmissionsResponse :=
  { Count := 0, Submissions := [] }

def setSubmissionsResponseField (r : SubmissionsResponse) (k : String) (v : Json) :
    Option SubmissionsResponse :=
  if k = "count" then intField v (fun n => { r with Count := n }) r
  else if k = "submissions" then
    match v with
    | Json.arr xs => (xs.mapM unmarshalSubmission).map (fun l => { r with Submissions := l })
    | Json.null => some r
    | _ => none
  else some r

def unmarshalSubmissionsResponse : RawBytes → Option SubmissionsResponse :=
  unmarshalRaw setSubmissionsResponseField zeroSubmissionsResponse

/-- One field of Go struct `Task` (api_client.go:110-113). -/
def setTaskField (r : Task) (k : String) (v : Json) : Option Task :=
  if k = "id" then intField v (fun n => { r with ID := n }) r
  else if k = "name" then strField v (fun s => { r with Name := s }) r
  else some r

def unmarshalTask : Json → Option Task :=
  unmarshalJson setTaskField zeroTask

/-- One field of Go struct `ContestInfo` (api_client.go:99-108). -/
def setContestInfoField (r : ContestInfo) (k : String) (v : Json) : Option ContestInfo :=
  if k = "id" then intField v (fun n => { r with ID := n }) r
  else if k = "name" then strField v (fun s => { r with Name := s }) r
  else if k = "status" then strField v (fun s => { r with Status := s }) r
  else if k = "starts" then intField v (fun n => { r with Starts := n }) r
  else if k = "ends" then intField v (fun n => { r with Ends := n }) r
  else if k = "registered" then boolField v (fun b => { r with Registered := b }) r
  else if k = "tasks" then
    match v with
    | Json.arr xs => (xs.mapM unmarshalTask).map (fun l => { r with Tasks := l })
    | Json.null => some r
    | _ => none
  else if k = "description" then strField v (fun s => { r with Description := s }) r
  else some r

def unmarshalContestInfo : RawBytes → Option ContestInfo :=
  unmarshalRaw setContestInfoField zeroContestInfo

/-! ### Result normalizer (api_client.go:357-445) -/

/-- Go `int(f)` for a `float64`: truncation toward zero. `Int.tdiv` is
T-division, and `q.den > 0`, so `Int.tdiv q.num q.den` is exactly the
truncation of `q`. -/
def truncRat (q : ℚ) : ℤ := Int.tdiv q.num q.den

/-- Go `fmt.Sprintf("%v", v)` on a value decoded into `interface{}`.
Strings, bools, nil and integer-valued numbers (the only cases any claim
exercises) are rendered exactly as Go does; the rendering of fractional
numbers, arrays and maps is abbreviated. -/
def goFormatValue : Json → String
  | Json.str s => s
  | Json.bool b => if b then "true" else "false"
  | Json.null => "<nil>"
  | Json.num q => if q.den = 1 then toString q.num else toString q
  | Json.arr _ => "[...]"
  | Json.obj _ => "map[...]"

/-- Lookup in the `map[string]interface{}` Go builds from a JSON object:
a later duplicate key overwrites an earlier one. -/
def lookupField (fields : List (String × Json)) (key : String) : Option Json :=
  fields.foldl (fun acc kv => if kv.1 = key then some kv.2 else acc) none

/-- `convertResultToStatus` (api_client.go:377-401): derive the canonical
status from a decoded compiled-result message. -/
def convertResultToStatus (result : SubmissionResult) : SubmissionStatus :=
  { ID := "current"
    Score := result.TotalPoints
    Result := result.ShownVerdictText
    Status :=
      if result.Compiled = false then "compilation_error"
      else if result.TotalPoints = 100 then "accepted"
      else if result.TotalPoints > 0 then "partial"
      else "wrong_answer"
    Time :=
      match result.Subtasks with
      | [] => ""
      | sub :: _ => toString sub.WorstTime ++ " ms"
    Memory := "" }

/-- `parseStatusMessage` (api_client.go:403-445): start from the top-level
envelope fields, then — when `data` decoded to a JSON object — override
each field from the same-named key inside it.  The six overrides in the Go
source touch six distinct fields, so they are computed independently here;
`score` is only overridden when the value is a number (Go: a `float64`
type assertion), and truncated toward zero.  An ID that is still empty at
the end becomes the sentinel `"unknown"`. -/
def parseStatusMessage (message : WSMessage) : SubmissionStatus :=
  let st : SubmissionStatus :=
    match message.Data with
    | Json.obj fields =>
      { ID :=
          match lookupField fields "id" with
          | some v => goFormatValue v
          | none => ""
        Status :=
          match lookupField fields "status" with
          | some v => goFormatValue v
          | none => message.Status
        Result :=
          match lookupField fields "result" with
          | some v => goFormatValue v
          | none => message.Result
        Score :=
          match lookupField fields "score" with
          | some (Json.num q) => truncRat q
          | _ => message.Score
        Time :=
          match lookupField fields "time" with
          | some v => goFormatValue v
          | none => message.Time
        Memory :=
          match lookupField fields "memory" with
          | some v => goFormatValue v
          | none => message.Memory }
    | _ =>
      { ID := "", Status := message.Status, Result := message.Result,
        Score := message.Score, Time := message.Time, Memory := message.Memory }
  if st.ID = "" then { st with ID := "unknown" } else st

/-- `parseWebSocketMessage` (api_client.go:357-375): try to unmarshal the
payload as a `SubmissionResult`; if that errors, try `WSMessage`; else fail
with "неизвестный формат сообщения". -/
def parseWebSocketMessage (message : RawBytes) : Except String SubmissionStatus :=
  match message with
  | none => Except.error "неизвестный формат сообщения"
  | some j =>
    match unmarshalSubmissionResult j with
    | some result => Except.ok (convertResultToStatus result)
    | none =>
      match unmarshalWSMessage j with
      | some wsMessage => Except.ok (parseStatusMessage wsMessage)
      | none => Except.error "неизвестный формат сообщения"

/-! ### Verdict classifier (api_client.go:447-460) -/

def finalStatuses : List String :=
  ["accepted", "wrong_answer", "time_limit_exceeded",
   "memory_limit_exceeded", "compilation_error", "runtime_error",
   "AC", "WA", "TLE", "MLE", "CE", "RE"]

/-- `isFinalStatus` (api_client.go:447-460): linear scan over the fixed
list of terminal tokens. -/
def isFinalStatus (status : String) : Bool :=
  finalStatuses.any (fun s => status = s)

/-! ### Fallback endpoint prober and REST lookups (api_client.go:462-507,
682-732, 747-775) -/

/-- The outcome of one HTTP round trip. `failure` covers request-building
and transport errors (`http.NewRequest` / `client.Do` returning an error);
`response` carries the HTTP status code and the response body bytes. -/
inductive HTTPOutcome : Type where
  | failure : HTTPOutcome
  | response (code : ℕ) (body : RawBytes) : HTTPOutcome

/-- The error values the REST helpers produce (each Go `fmt.Errorf` call
site gets one constructor; `httpStatus` keeps the code, matching
`fmt.Errorf("status %d", ...)` / `fmt.Errorf("HTTP %d", ...)`). -/
inductive RESTError : Type where
  | transportFailed : RESTError
  | httpStatus (code : ℕ) : RESTError
  | decodeFailed : RESTError
  | rateLimited : RESTError
deriving DecidableEq, Repr

/-- `tryGetStatus` (api_client.go:481-507): any non-200 code is an error;
a 200 body must decode directly into `SubmissionStatus`. -/
def tryGetStatus (o : HTTPOutcome) : Except RESTError SubmissionStatus :=
  match o with
  | HTTPOutcome.failure => Except.error RESTError.transportFailed
  | HTTPOutcome.response code body =>
    if code ≠ 200 then Except.error (RESTError.httpStatus code)
    else
      match unmarshalSubmissionStatus body with
      | some st => Except.ok st
      | none => Except.error RESTError.decodeFailed

/-- Insertion step for the descending-by-ID ordering used in
`sort.Slice(..., func(i, j) { return s[i].ID > s[j].ID })`. -/
def insertByIdDesc (s : Submission) : List Submission → List Submission
  | [] => [s]
  | t :: ts => if s.ID ≥ t.ID then s :: t :: ts else t :: insertByIdDesc s ts

/-- `sort.Slice` with `ID >` as the comparator: Go's sort is unstable, so
any descending-by-ID permutation is faithful; insertion sort is used. -/
def sortByIdDesc (l : List Submission) : List Submission :=
  l.foldr insertByIdDesc []

/-- The `limit > 0 && limit < len` truncation shared by the submission
listing functions. -/
def applyLimit {α : Type} (limit : ℤ) (l : List α) : List α :=
  if 0 < limit ∧ limit < (l.length : ℤ) then l.take limit.toNat else l

/-- `tryGetSubmissions` (api_client.go:682-732): 404 resolves to a
successful empty list, 429 to a "rate limit" error, any other non-200 code
to an "HTTP %d" error; a 200 body decodes as `{count, submissions}`, is
sorted by ID descending, and truncated to `limit` when `0 < limit < len`. -/
def tryGetSubmissions (limit : ℤ) (o : HTTPOutcome) :
    Except RESTError (List Submission) :=
  match o with
  | HTTPOutcome.failure => Except.error RESTError.transportFailed
  | HTTPOutcome.response code body =>
    if code ≠ 200 then
      if code = 404 then Except.ok []
      else if code = 429 then Except.error RESTError.rateLimited
      else Except.error (RESTError.httpStatus code)
    else
      match unmarshalSubmissionsResponse body with
      | some resp => Except.ok (applyLimit limit (sortByIdDesc resp.Submissions))
      | none => Except.error RESTError.decodeFailed

/-- `tryGetContestInfo` (api_client.go:747-775): any non-200 code is an
error; a 200 body must decode into `ContestInfo`. -/
def tryGetContestInfo (o : HTTPOutcome) : Except RESTError ContestInfo :=
  match o with
  | HTTPOutcome.failure => Except.error RESTError.transportFailed
  | HTTPOutcome.response code body =>
    if code ≠ 200 then Except.error (RESTError.httpStatus code)
    else
      match unmarshalContestInfo body with
      | some ci => Except.ok ci
      | none => Except.error RESTError.decodeFailed

/-- The candidate-loop of `tryRESTStatus` (api_client.go:462-479):
`var lastError error; for _, endpoint := range endpoints { ... }`.
Besides the Go result (`.2`), the model also returns the list of
candidates that were actually issued (`.1`), so that short-circuiting is
provable.  The accumulator starts as `none`, Go's nil `lastError`; on
total failure the last candidate's error is returned. -/
def probeLoop {E R : Type} (issue : String → Except E R) :
    List String → Option E → List String × Except (Option E) R
  | [], last => ([], Except.error last)
  | ep :: rest, _ =>
    match issue ep with
    | Except.ok r => ([ep], Except.ok r)
    | Except.error e =>
      let t := probeLoop issue rest (some e)
      (ep :: t.1, t.2)

/-- The fixed candidate path list of `tryRESTStatus` (api_client.go:463-468). -/
def statusEndpoints (submissionID : String) : List String :=
  ["/submission/" ++ submissionID,
   "/submissions/" ++ submissionID,
   "/api/submission/" ++ submissionID,
   "/api/submissions/" ++ submissionID]

/-- `tryRESTStatus` (api_client.go:462-479), parameterised by the
transport: one `HTTPOutcome` per endpoint. -/
def tryRESTStatus (transport : String → HTTPOutcome) (submissionID : String) :
    List String × Except (Option RESTError) SubmissionStatus :=
  probeLoop (fun ep => tryGetStatus (transport ep)) (statusEndpoints submissionID) none

/-! ### Status resolution engine (api_clent.go:206-220,
api_client.go:213-285) -/

/-- One outcome of `conn.ReadMessage()` in the websocket loop:
a frame with its message type (1 = `websocket.TextMessage`) and payload,
the read deadline elapsing (a `net.Error` with `Timeout() = true`), or any
other read error. -/
inductive ReadEvent : Type where
  | msg (messageType : ℤ) (payload : RawBytes) : ReadEvent
  | timeout : ReadEvent
  | netError : ReadEvent

/-- Errors surfaced by the status resolution engine. -/
inductive ResolveError : Type where
  | notAuthenticated : ResolveError
  | wsConnectFailed : ResolveError
  | wsTimeout : ResolveError
  | wsReadError : ResolveError
deriving DecidableEq, Repr

/-- The read loop of `getStatusViaWebSocket` (api_client.go:240-284) over
the sequence of read outcomes.  `lastStatus` is the Go local of the same
name.  A parse failure skips the frame; a successful parse overwrites the
record's ID with the submission id, updates `lastStatus`, and exits when
the classifier reports a terminal status.  A deadline timeout returns
`lastStatus` when present, else the "таймаут ожидания статуса" error; any
other read error is fatal.  `none` models the loop still blocked on
`ReadMessage` when the supplied events run out. -/
def wsLoop (submissionID : String) (lastStatus : Option SubmissionStatus) :
    List ReadEvent → Option (Except ResolveError SubmissionStatus)
  | [] => none
  | ReadEvent.timeout :: _ =>
    some (match lastStatus with
          | some s => Except.ok s
          | none => Except.error ResolveError.wsTimeout)
  | ReadEvent.netError :: _ => some (Except.error ResolveError.wsReadError)
  | ReadEvent.msg t payload :: rest =>
    if t = 1 then
      match parseWebSocketMessage payload with
      | Except.error _ => wsLoop submissionID lastStatus rest
      | Except.ok st =>
        let st2 := { st with ID := submissionID }
        if isFinalStatus st2.Status then some (Except.ok st2)
        else wsLoop submissionID (some st2) rest
    else wsLoop submissionID lastStatus rest

/-- `getStatusViaWebSocket` (api_client.go:213-285): `conn = none` models
`dialer.Dial` failing ("WebSocket connection failed"); otherwise the read
loop runs on the connection's event sequence with no last-known status. -/
def getStatusViaWebSocket (submissionID : String)
    (conn : Option (List ReadEvent)) :
    Option (Except ResolveError SubmissionStatus) :=
  match conn with
  | none => some (Except.error ResolveError.wsConnectFailed)
  | some events => wsLoop submissionID none events

/-- `IsAuthenticated` (api_client.go:854-856). -/
def isAuthenticated (config : Config) : Bool :=
  config.SessionToken ≠ "" && config.UserID ≠ ""

/-- A network operation performed by the engine, recorded for the
no-network-call-when-unauthenticated claim. -/
inductive NetOp : Type where
  | restCall (endpoint : String) : NetOp
  | wsDial : NetOp
deriving DecidableEq, Repr

/-- `GetSubmissionStatus` (api_clent.go:206-220): authentication guard,
then the REST prober, then the websocket fallback.  The second component
records every network operation issued, in order. -/
def getSubmissionStatus (config : Config) (transport : String → HTTPOutcome)
    (conn : Option (List ReadEvent)) (submissionID : String) :
    Option (Except ResolveError SubmissionStatus) × List NetOp :=
  if isAuthenticated config = false then
    (some (Except.error ResolveError.notAuthenticated), [])
  else
    let probed := tryRESTStatus transport submissionID
    match probed.2 with
    | Except.ok st => (some (Except.ok st), probed.1.map NetOp.restCall)
    | Except.error _ =>
      (getStatusViaWebSocket submissionID conn,
       probed.1.map NetOp.restCall ++ [NetOp.wsDial])

/-! ### Auxiliary notions used by the theorems -/

/-- What one read event contributes to `lastStatus` in the websocket loop:
`some` of the normalized record (ID forced to the submission id) when the
event is a text frame whose payload normalizes, `none` otherwise. -/
def normFrame (submissionID : String) : ReadEvent → Option SubmissionStatus
  | ReadEvent.msg t payload =>
    if t = 1 then
      match parseWebSocketMessage payload with
      | Except.ok st => some { st with ID := submissionID }
      | Except.error _ => none
    else none
  | _ => none

/-- The value of the loop's `lastStatus` local after processing `frames`,
starting from `acc`. -/
def lastNormalizedFrom (submissionID : String) (acc : Option SubmissionStatus)
    (frames : List ReadEvent) : Option SubmissionStatus :=
  frames.foldl
    (fun a f =>
      match normFrame submissionID f with
      | some s => some s
      | none => a) acc

/-- The last successfully normalized record among `frames` (the value of
`lastStatus` when the loop has consumed them all). -/
def lastNormalized (submissionID : String) (frames : List ReadEvent) :
    Option SubmissionStatus :=
  lastNormalizedFrom submissionID none frames

/-- A read event on which the websocket loop keeps looping: a frame that is
non-text, fails to normalize, or normalizes to a non-terminal status.
Timeouts and read errors make the loop return, so they do not qualify. -/
def keepsWaiting (submissionID : String) (e : ReadEvent) : Bool :=
  match e with
  | ReadEvent.msg _ _ =>
    match normFrame submissionID e with
    | some st => !isFinalStatus st.Status
    | none => true
  | _ => false

mutual

/-- All JSON numbers anywhere in a document are non-negative. -/
def nonnegNums : Json → Bool
  | Json.null => true
  | Json.bool _ => true
  | Json.str _ => true
  | Json.num q => decide (0 ≤ q)
  | Json.arr elems => nonnegList elems
  | Json.obj fields => nonnegFields fields

/-- `nonnegNums` over every element of an array. -/
def nonnegList : List Json → Bool
  | [] => true
  | j :: rest => nonnegNums j && nonnegList rest

/-- `nonnegNums` over every value of an object. -/
def nonnegFields : List (String × Json) → Bool
  | [] => true
  | (_, v) :: rest => nonnegNums v && nonnegFields rest

end

/-! ### Claims -/

/-- C4: `isFinalStatus` returns `true` for exactly the 12 tokens
accepted/wrong_answer/time_limit_exceeded/memory_limit_exceeded/
compilation_error/runtime_error/AC/WA/TLE/MLE/CE/RE, and `false` for every
other string — in particular for the empty string, pending, in_queue,
testing, running, and partial. -/
theorem isFinalStatus_iff_mem_terminal_set :
    (∀ s : String, isFinalStatus s = true ↔
      (s = "accepted" ∨ s = "wrong_answer" ∨ s = "time_limit_exceeded" ∨
       s = "memory_limit_exceeded" ∨ s = "compilation_error" ∨
       s = "runtime_error" ∨ s = "AC" ∨ s = "WA" ∨ s = "TLE" ∨ s = "MLE" ∨
       s = "CE" ∨ s = "RE"))
    ∧ isFinalStatus "" = false ∧ isFinalStatus "pending" = false
    ∧ isFinalStatus "in_queue" = false ∧ isFinalStatus "testing" = false
    ∧ isFinalStatus "running" = false ∧ isFinalStatus "partial" = false := by
  refine ⟨fun s => ?_, by decide, by decide, by decide, by decide, by decide, by decide⟩
  simp [isFinalStatus, finalStatuses]

/-- C2: whenever a raw message decodes as the compiled-result shape, the
normalizer produces `convertResultToStatus` of the decoded record, and the
status is derived exactly by the rule: not compiled → compilation_error
(regardless of points); compiled and 100 points → accepted; compiled and
strictly between 0 and 100 → partial; compiled and 0 points →
wrong_answer. -/
theorem normalize_compiled_result_status_rule (j : Json) (r : SubmissionResult)
    (h : unmarshalSubmissionResult j = some r) :
    parseWebSocketMessage (some j) = Except.ok (convertResultToStatus r)
    ∧ (r.Compiled = false → (convertResultToStatus r).Status = "compilation_error")
    ∧ (r.Compiled = true → r.TotalPoints = 100 →
        (convertResultToStatus r).Status = "accepted")
    ∧ (r.Compiled = true → 0 < r.TotalPoints → r.TotalPoints < 100 →
        (convertResultToStatus r).Status = "partial")
    ∧ (r.Compiled = true → r.TotalPoints = 0 →
        (convertResultToStatus r).Status = "wrong_answer") := by
  refine ⟨?_, ?_, ?_, ?_, ?_⟩
  · simp [parseWebSocketMessage, h]
  · intro hc
    simp [convertResultToStatus, hc]
  · intro hc hp
    simp [convertResultToStatus, hc, hp]
  · intro hc h1 h2
    simp only [convertResultToStatus, hc]
    rw [if_neg (by simp), if_neg (by omega), if_pos (by omega)]
  · intro hc hp
    simp only [convertResultToStatus, hc]
    rw [if_neg (by simp), if_neg (by omega), if_neg (by omega)]

/-- Witness for C2 at a concrete compiled accepted message. -/
theorem normalize_compiled_result_status_rule_instance :
    parseWebSocketMessage
        (some (Json.obj [("compiled", Json.bool true), ("total_points", Json.num 100)]))
      = Except.ok (convertResultToStatus
          { Compiled := true, CompilerLog := "", ShownVerdict := 0,
            ShownVerdictText := "", TotalPoints := 100, Subtasks := [] })
    ∧ (convertResultToStatus
          { Compiled := true, CompilerLog := "", ShownVerdict := 0,
            ShownVerdictText := "", TotalPoints := 100, Subtasks := [] }).Status
        = "accepted" := by
  have h := normalize_compiled_result_status_rule
    (Json.obj [("compiled", Json.bool true), ("total_points", Json.num 100)])
    { Compiled := true, CompilerLog := "", ShownVerdict := 0,
      ShownVerdictText := "", TotalPoints := 100, Subtasks := [] } rfl
  exact ⟨h.1, h.2.2.1 rfl rfl⟩

/-- C1 (failing input): with REST failing on all four candidates, the
stream connected, and the three frames of the spec scenario (an
unparseable blob, a generic envelope with status "testing", a message with
status "accepted" and score 100), the engine does NOT return
`{id:"42", status:"accepted", score:100}`: Go's `json.Unmarshal` ignores
unknown object keys, so the second frame already decodes as a zero-valued
compiled-result, normalizes to `compilation_error` with score 0, is
classified terminal, and the engine returns it — the third frame is never
read (the loop's value on the first two events alone is the same). -/
theorem stream_scenario_returns_compilation_error :
    getSubmissionStatus
        { TelegramToken := "", SessionToken := "tok", UserID := "uid",
          APIBaseURL := "", Username := "", CurrentContest := "" }
        (fun _ => HTTPOutcome.failure)
        (some [ReadEvent.msg 1 none,
               ReadEvent.msg 1 (some (Json.obj [("status", Json.str "testing")])),
               ReadEvent.msg 1 (some (Json.obj
                 [("status", Json.str "accepted"), ("score", Json.num 100)]))])
        "42"
      = (some (Except.ok
            { ID := "42", Status := "compilation_error", Result := "",
              Score := 0, Time := "", Memory := "" }),
         [NetOp.restCall "/submission/42", NetOp.restCall "/submissions/42",
          NetOp.restCall "/api/submission/42",
          NetOp.restCall "/api/submissions/42", NetOp.wsDial])
    ∧ wsLoop "42" none
        [ReadEvent.msg 1 none,
         ReadEvent.msg 1 (some (Json.obj [("status", Json.str "testing")]))]
      = wsLoop "42" none
        [ReadEvent.msg 1 none,
         ReadEvent.msg 1 (some (Json.obj [("status", Json.str "testing")])),
         ReadEvent.msg 1 (some (Json.obj
           [("status", Json.str "accepted"), ("score", Json.num 100)]))] :=
  ⟨rfl, rfl⟩

/-- C3 (failing input): for a generic-envelope message carrying a nested
data map (`{"type":"status_update","data":{"score":87}}`), the normalizer
does NOT apply the data overrides: the compiled-result decode succeeds
first (unknown keys are ignored by Go's `json.Unmarshal`), so `normalize`
yields status `compilation_error` with score 0.  The override-and-truncate
behaviour the claim describes is implemented in `parseStatusMessage` —
the second and third conjuncts show the envelope decode and
`parseStatusMessage` producing score 87 — but `parseWebSocketMessage`
never reaches it for such a message. -/
theorem envelope_data_override_is_unreachable :
    parseWebSocketMessage
        (some (Json.obj [("type", Json.str "status_update"),
                         ("data", Json.obj [("score", Json.num 87)])]))
      = Except.ok
          { ID := "current", Status := "compilation_error", Result := "",
            Score := 0, Time := "", Memory := "" }
    ∧ unmarshalWSMessage
        (Json.obj [("type", Json.str "status_update"),
                   ("data", Json.obj [("score", Json.num 87)])])
      = some
          { Typ := "status_update", Data := Json.obj [("score", Json.num 87)],
            Status := "", Result := "", Score := 0, Time := "", Memory := "" }
    ∧ parseStatusMessage
          { Typ := "status_update", Data := Json.obj [("score", Json.num 87)],
            Status := "", Result := "", Score := 0, Time := "", Memory := "" }
      = { ID := "unknown", Status := "", Result := "", Score := 87,
          Time := "", Memory := "" } :=
  ⟨rfl, rfl, rfl⟩

/-- C6 (counterexample): a probed status-by-id candidate answering
HTTP 404 yields an error ("status 404"), not a successful empty result. -/
theorem status_probe_404_is_error :
    tryGetStatus (HTTPOutcome.response 404 none)
      = Except.error (RESTError.httpStatus 404) := rfl

/-- C6 (amended): HTTP 404 resolves to a successful empty result only in
the submission-listing prober (`tryGetSubmissions`); the status-by-id
prober (`tryGetStatus`) and the contest prober (`tryGetContestInfo`) treat
404 as an ordinary non-200 error. -/
theorem http404_handling_per_prober (limit : ℤ) (body : RawBytes) :
    tryGetSubmissions limit (HTTPOutcome.response 404 body) = Except.ok []
    ∧ tryGetStatus (HTTPOutcome.response 404 body)
        = Except.error (RESTError.httpStatus 404)
    ∧ tryGetContestInfo (HTTPOutcome.response 404 body)
        = Except.error (RESTError.httpStatus 404) :=
  ⟨rfl, rfl, rfl⟩

/-- C8 (counterexample): a compiled-result message with
`total_points = -5` normalizes to a record with the negative score -5, so
the normalizer's output score is not always non-negative. -/
theorem normalize_can_produce_negative_score :
    parseWebSocketMessage
        (some (Json.obj [("compiled", Json.bool true),
                         ("total_points", Json.num (-5))]))
      = Except.ok
          { ID := "current", Status := "wrong_answer", Result := "",
            Score := -5, Time := "", Memory := "" }
    ∧ (-5 : ℤ) < 0 :=
  ⟨rfl, by decide⟩

/-- C9: with a missing credential (empty session token or empty user id),
status resolution fails immediately with the authentication error and the
recorded network trace is empty — no REST probe and no stream dial. -/
theorem unauthenticated_resolution_makes_no_network_call (config : Config)
    (transport : String → HTTPOutcome) (conn : Option (List ReadEvent))
    (submissionID : String)
    (h : config.SessionToken = "" ∨ config.UserID = "") :
    getSubmissionStatus config transport conn submissionID
      = (some (Except.error ResolveError.notAuthenticated), []) := by
  have hauth : isAuthenticated config = false := by
    cases h with
    | inl h => simp [isAuthenticated, h]
    | inr h => simp [isAuthenticated, h]
  simp [getSubmissionStatus, hauth]

/-- Witness for C9 at a concrete config with an empty session token. -/
theorem unauthenticated_resolution_makes_no_network_call_instance :
    getSubmissionStatus
        { TelegramToken := "", SessionToken := "", UserID := "u7",
          APIBaseURL := "", Username := "", CurrentContest := "" }
        (fun _ => HTTPOutcome.failure) none "42"
      = (some (Except.error ResolveError.notAuthenticated), []) :=
  unauthenticated_resolution_makes_no_network_call _ _ _ _ (Or.inl rfl)

/-- C5: the prober issues the candidates strictly in order, returns the
first success immediately without issuing any later candidate, and on
total failure returns an error holding the last candidate's error. -/
theorem probe_short_circuits_and_keeps_last_error {E R : Type}
    (issue : String → Except E R) :
    (∀ (pre post : List String) (c : String) (r : R) (last : Option E),
       (∀ x ∈ pre, ∃ e, issue x = Except.error e) →
       issue c = Except.ok r →
       probeLoop issue (pre ++ c :: post) last = (pre ++ [c], Except.ok r))
    ∧ (∀ (cs : List String) (c : String) (e : E) (last : Option E),
       (∀ x ∈ cs, ∃ e2, issue x = Except.error e2) →
       issue c = Except.error e →
       probeLoop issue (cs ++ [c]) last
         = (cs ++ [c], Except.error (some e))) := by
  constructor
  · intro pre
    induction pre with
    | nil =>
      intro post c r last _ hc
      simp [probeLoop, hc]
    | cons x xs ih =>
      intro post c r last hpre hc
      obtain ⟨e, he⟩ := hpre x (by simp)
      have hrec := ih post c r (some e) (fun y hy => hpre y (by simp [hy])) hc
      simp [probeLoop, he, hrec]
  · intro cs
    induction cs with
    | nil =>
      intro c e last _ hc
      simp [probeLoop, hc]
    | cons x xs ih =>
      intro c e last hall hc
      obtain ⟨e2, he2⟩ := hall x (by simp)
      have hrec := ih c e (some e2) (fun y hy => hall y (by simp [hy])) hc
      simp [probeLoop, he2, hrec]

/-- Witness for C5: with candidates 1–3 failing and candidate 4
succeeding, the prober issues exactly the first four and returns the
fourth's result; with every candidate failing, the last error survives. -/
theorem probe_short_circuits_and_keeps_last_error_instance :
    probeLoop (fun s => if s = "d" then Except.ok 7 else Except.error s.length)
        ["a", "bb", "ccc", "d", "zzzzz"] none
      = (["a", "bb", "ccc", "d"], Except.ok 7)
    ∧ probeLoop (fun s => if s = "d" then Except.ok 7 else Except.error s.length)
        ["a", "bb", "ccc"] none
      = (["a", "bb", "ccc"], Except.error (some 3)) := by
  have h1 := (probe_short_circuits_and_keeps_last_error
      (fun s => if s = "d" then Except.ok 7 else Except.error s.length)).1
    ["a", "bb", "ccc"] ["zzzzz"] "d" 7 none
    (by intro x hx; refine ⟨x.length, ?_⟩; fin_cases hx <;> rfl) rfl
  have h2 := (probe_short_circuits_and_keeps_last_error
      (fun s => if s = "d" then Except.ok 7 else Except.error s.length)).2
    ["a", "bb"] "ccc" 3 none
    (by intro x hx; refine ⟨x.length, ?_⟩; fin_cases hx <;> rfl) rfl
  exact ⟨by simpa using h1, by simpa using h2⟩

/-- Helper for C7: running the read loop on frames that all keep it
waiting, followed by a deadline timeout, returns the `lastStatus`
accumulated over the frames (or the timeout error if there is none). -/
theorem wsLoop_frames_then_timeout (submissionID : String)
    (frames rest : List ReadEvent) :
    ∀ acc, (∀ f ∈ frames, keepsWaiting submissionID f = true) →
    wsLoop submissionID acc (frames ++ ReadEvent.timeout :: rest)
      = some (match lastNormalizedFrom submissionID acc frames with
              | some s => Except.ok s
              | none => Except.error ResolveError.wsTimeout) := by
  induction frames with
  | nil =>
    intro acc _
    cases acc <;> rfl
  | cons f fs ih =>
    intro acc hkeep
    have hf := hkeep f (by simp)
    have hrest : ∀ g ∈ fs, keepsWaiting submissionID g = true :=
      fun g hg => hkeep g (by simp [hg])
    cases f with
    | timeout => simp [keepsWaiting] at hf
    | netError => simp [keepsWaiting] at hf
    | msg t payload =>
      by_cases ht : t = 1
      · rcases hp : parseWebSocketMessage payload with e | st
        · have hnorm : normFrame submissionID (ReadEvent.msg t payload) = none := by
            simp [normFrame, ht, hp]
          rw [List.cons_append]
          simp only [wsLoop]
          rw [if_pos ht]
          simp only [hp]
          rw [ih acc hrest]
          simp [lastNormalizedFrom, hnorm]
        · have hnorm : normFrame submissionID (ReadEvent.msg t payload)
              = some { st with ID := submissionID } := by
            simp [normFrame, ht, hp]
          have hnf : isFinalStatus ({ st with ID := submissionID }).Status = false := by
            have h2 := hf
            simp only [keepsWaiting, hnorm] at h2
            simpa using h2
          rw [List.cons_append]
          simp only [wsLoop]
          rw [if_pos ht]
          simp only [hp]
          rw [if_neg (by simp [hnf])]
          rw [ih (some { st with ID := submissionID }) hrest]
          simp [lastNormalizedFrom, hnorm]
      · have hnorm : normFrame submissionID (ReadEvent.msg t payload) = none := by
          simp [normFrame, ht]
        rw [List.cons_append]
        simp only [wsLoop]
        rw [if_neg ht]
        rw [ih acc hrest]
        simp [lastNormalizedFrom, hnorm]

/-- C7: when the read deadline elapses after a sequence of frames none of
which ends the loop, the engine returns the last successfully normalized
status as a non-error result whenever one exists, and the timeout error
exactly when no frame normalized before the deadline. -/
theorem timeout_returns_last_known_or_error (submissionID : String)
    (frames rest : List ReadEvent)
    (h : ∀ f ∈ frames, keepsWaiting submissionID f = true) :
    getStatusViaWebSocket submissionID
        (some (frames ++ ReadEvent.timeout :: rest))
      = some (match lastNormalized submissionID frames with
              | some s => Except.ok s
              | none => Except.error ResolveError.wsTimeout) := by
  simpa [getStatusViaWebSocket, lastNormalized] using
    wsLoop_frames_then_timeout submissionID frames rest none h

/-- Witness for C7: an unparseable frame plus a partial-score frame then
the deadline yields the partial record; an unparseable frame alone then
the deadline yields the timeout error. -/
theorem timeout_returns_last_known_or_error_instance :
    getStatusViaWebSocket "9"
        (some [ReadEvent.msg 1 none,
               ReadEvent.msg 1 (some (Json.obj
                 [("compiled", Json.bool true), ("total_points", Json.num 55)])),
               ReadEvent.timeout])
      = some (Except.ok
          { ID := "9", Status := "partial", Result := "", Score := 55,
            Time := "", Memory := "" })
    ∧ getStatusViaWebSocket "9" (some [ReadEvent.msg 1 none, ReadEvent.timeout])
      = some (Except.error ResolveError.wsTimeout) := by
  have h1 := timeout_returns_last_known_or_error "9"
    [ReadEvent.msg 1 none,
     ReadEvent.msg 1 (some (Json.obj
       [("compiled", Json.bool true), ("total_points", Json.num 55)]))]
    [] (by decide)
  have h2 := timeout_returns_last_known_or_error "9" [ReadEvent.msg 1 none] []
    (by decide)
  exact ⟨h1.trans rfl, h2.trans rfl⟩

/-- Helper for C10: whenever the read loop returns a successful status
that the classifier does not accept as terminal, the exit was through the
deadline-timeout branch, and the returned record is the `lastStatus`
accumulated over the events before the timeout. -/
theorem wsLoop_ok_nonfinal_via_timeout (submissionID : String) :
    ∀ (events : List ReadEvent) (acc : Option SubmissionStatus)
      (s : SubmissionStatus),
      wsLoop submissionID acc events = some (Except.ok s) →
      isFinalStatus s.Status = false →
      ∃ pre post, events = pre ++ ReadEvent.timeout :: post
        ∧ lastNormalizedFrom submissionID acc pre = some s := by
  intro events
  induction events with
  | nil =>
    intro acc s h _
    simp [wsLoop] at h
  | cons e rest ih =>
    intro acc s h hnf
    cases e with
    | timeout =>
      refine ⟨[], rest, rfl, ?_⟩
      cases acc with
      | none => simp [wsLoop] at h
      | some s0 =>
        simp only [wsLoop, Option.some.injEq] at h
        have hs : s0 = s := Except.ok.inj h
        simp [lastNormalizedFrom, hs]
    | netError => simp [wsLoop] at h
    | msg t payload =>
      by_cases ht : t = 1
      · rcases hp : parseWebSocketMessage payload with e2 | st
        · have hnorm : normFrame submissionID (ReadEvent.msg t payload) = none := by
            simp [normFrame, ht, hp]
          simp only [wsLoop] at h
          rw [if_pos ht] at h
          simp only [hp] at h
          obtain ⟨pre, post, heq, hlast⟩ := ih acc s h hnf
          refine ⟨ReadEvent.msg t payload :: pre, post, by rw [heq, List.cons_append], ?_⟩
          simpa [lastNormalizedFrom, hnorm] using hlast
        · simp only [wsLoop] at h
          rw [if_pos ht] at h
          simp only [hp] at h
          by_cases hfin : isFinalStatus ({ st with ID := submissionID }).Status = true
          · rw [if_pos hfin] at h
            have hss : { st with ID := submissionID } = s := by
              have := Option.some.inj h
              exact Except.ok.inj this
            rw [hss] at hfin
            rw [hfin] at hnf
            exact absurd hnf (by simp)
          · rw [if_neg hfin] at h
            have hnorm : normFrame submissionID (ReadEvent.msg t payload)
                = some { st with ID := submissionID } := by
              simp [normFrame, ht, hp]
            obtain ⟨pre, post, heq, hlast⟩ :=
              ih (some { st with ID := submissionID }) s h hnf
            refine ⟨ReadEvent.msg t payload :: pre, post,
              by rw [heq, List.cons_append], ?_⟩
            simpa [lastNormalizedFrom, hnorm] using hlast
      · have hnorm : normFrame submissionID (ReadEvent.msg t payload) = none := by
          simp [normFrame, ht]
        simp only [wsLoop] at h
        rw [if_neg ht] at h
        obtain ⟨pre, post, heq, hlast⟩ := ih acc s h hnf
        refine ⟨ReadEvent.msg t payload :: pre, post,
          by rw [heq, List.cons_append], ?_⟩
        simpa [lastNormalizedFrom, hnorm] using hlast

/-- C10: a compiled-result frame with `compiled = true` and
`0 < total_points < 100` normalizes to status "partial", which the
classifier never accepts as terminal; consequently the streaming loop
never exits through its terminal-verdict branch with such a record, and a
non-terminal (e.g. partial) status can reach the caller only through the
timeout path, carried by the `lastStatus` accumulated before the
deadline. -/
theorem partial_reaches_caller_only_via_timeout :
    (∀ r : SubmissionResult, r.Compiled = true → 0 < r.TotalPoints →
       r.TotalPoints < 100 →
       (convertResultToStatus r).Status = "partial"
       ∧ isFinalStatus (convertResultToStatus r).Status = false)
    ∧ (∀ (submissionID : String) (events : List ReadEvent)
         (s : SubmissionStatus),
        getStatusViaWebSocket submissionID (some events)
          = some (Except.ok s) →
        isFinalStatus s.Status = false →
        ∃ pre post, events = pre ++ ReadEvent.timeout :: post
          ∧ lastNormalized submissionID pre = some s) := by
  constructor
  · intro r hc h1 h2
    have hst : (convertResultToStatus r).Status = "partial" := by
      simp only [convertResultToStatus, hc]
      rw [if_neg (by simp), if_neg (by omega), if_pos (by omega)]
    exact ⟨hst, by rw [hst]; decide⟩
  · intro submissionID events s h hnf
    have h2 : wsLoop submissionID none events = some (Except.ok s) := by
      simpa [getStatusViaWebSocket] using h
    exact wsLoop_ok_nonfinal_via_timeout submissionID events none s h2 hnf

/-- Witness for C10: a 55-point compiled frame is normalized to "partial"
(non-terminal), and a concrete run returning that partial record does so
through a timeout event with the record as the last normalization. -/
theorem partial_reaches_caller_only_via_timeout_instance :
    ((convertResultToStatus
        { Compiled := true, CompilerLog := "", ShownVerdict := 0,
          ShownVerdictText := "", TotalPoints := 55, Subtasks := [] }).Status
        = "partial"
      ∧ isFinalStatus (convertResultToStatus
          { Compiled := true, CompilerLog := "", ShownVerdict := 0,
            ShownVerdictText := "", TotalPoints := 55,
            Subtasks := [] }).Status = false)
    ∧ ∃ pre post,
        [ReadEvent.msg 1 (some (Json.obj
           [("compiled", Json.bool true), ("total_points", Json.num 55)])),
         ReadEvent.timeout]
          = pre ++ ReadEvent.timeout :: post
        ∧ lastNormalized "9" pre
            = some { ID := "9", Status := "partial", Result := "",
                     Score := 55, Time := "", Memory := "" } := by
  constructor
  · exact partial_reaches_caller_only_via_timeout.1
      { Compiled := true, CompilerLog := "", ShownVerdict := 0,
        ShownVerdictText := "", TotalPoints := 55, Subtasks := [] }
      rfl (by decide) (by decide)
  · exact partial_reaches_caller_only_via_timeout.2 "9"
      [ReadEvent.msg 1 (some (Json.obj
         [("compiled", Json.bool true), ("total_points", Json.num 55)])),
       ReadEvent.timeout]
      { ID := "9", Status := "partial", Result := "", Score := 55,
        Time := "", Memory := "" }
      rfl (by decide)

/-! ### Lemmas about field decoding, for the score-sign claim -/

/-- A successful `boolField` decode either sets the field or (on null)
leaves the record unchanged. -/
theorem boolField_cases {α : Type} (v : Json) (set : Bool → α) (orig r2 : α)
    (h : boolField v set orig = some r2) : (∃ b, r2 = set b) ∨ r2 = orig := by
  cases v <;> simp [boolField] at h
  · exact Or.inr h.symm
  · exact Or.inl ⟨_, h.symm⟩

/-- A successful `strField` decode either sets the field or leaves the
record unchanged. -/
theorem strField_cases {α : Type} (v : Json) (set : String → α) (orig r2 : α)
    (h : strField v set orig = some r2) : (∃ s, r2 = set s) ∨ r2 = orig := by
  cases v <;> simp [strField] at h
  · exact Or.inr h.symm
  · exact Or.inl ⟨_, h.symm⟩

/-- A successful `intField` decode from a non-negative JSON number either
sets the field to a non-negative integer or leaves the record unchanged. -/
theorem intField_cases {α : Type} (v : Json) (set : ℤ → α) (orig r2 : α)
    (hv : nonnegNums v = true) (h : intField v set orig = some r2) :
    (∃ n : ℤ, 0 ≤ n ∧ r2 = set n) ∨ r2 = orig := by
  cases v <;> simp [intField] at h
  · exact Or.inr h.symm
  case num q =>
    rcases h with ⟨_, h⟩
    refine Or.inl ⟨q.num, ?_, h.symm⟩
    have hq : 0 ≤ q := by simpa [nonnegNums] using hv
    exact Rat.num_nonneg.mpr hq

/-- Truncation toward zero preserves non-negativity. -/
theorem truncRat_nonneg (q : ℚ) (h : 0 ≤ q) : 0 ≤ truncRat q := by
  unfold truncRat
  exact Int.tdiv_nonneg (Rat.num_nonneg.mpr h) (by positivity)

/-- Field-by-field decoding preserves any invariant that each single-field
step preserves under non-negative numeric inputs. -/
theorem applyFields_inv {α : Type} (set : α → String → Json → Option α)
    (P : α → Prop)
    (hset : ∀ r k v r2, nonnegNums v = true → set r k v = some r2 → P r → P r2) :
    ∀ (fields : List (String × Json)) (r0 r : α),
      nonnegFields fields = true → P r0 →
      applyFields set r0 fields = some r → P r := by
  intro fields
  induction fields with
  | nil =>
    intro r0 r _ hP h
    simp [applyFields] at h
    exact h ▸ hP
  | cons kv rest ih =>
    obtain ⟨k, v⟩ := kv
    intro r0 r hall hP h
    have hsplit : nonnegNums v = true ∧ nonnegFields rest = true := by
      simpa [nonnegFields, Bool.and_eq_true] using hall
    simp only [applyFields] at h
    cases hset2 : set r0 k v with
    | none => rw [hset2] at h; simp at h
    | some r1 =>
      rw [hset2] at h
      exact ih r1 r hsplit.2 (hset r0 k v r1 hsplit.1 hset2 hP) h

/-- One decoding step of `setSubmissionResultField` from a non-negative
value keeps `TotalPoints` non-negative. -/
theorem setSubmissionResultField_totalPoints (r : SubmissionResult)
    (k : String) (v : Json) (r2 : SubmissionResult)
    (hv : nonnegNums v = true)
    (h : setSubmissionResultField r k v = some r2)
    (h0 : 0 ≤ r.TotalPoints) : 0 ≤ r2.TotalPoints := by
  unfold setSubmissionResultField at h
  split_ifs at h
  · rcases boolField_cases _ _ _ _ h with ⟨b, rfl⟩ | rfl <;> simpa
  · rcases strField_cases _ _ _ _ h with ⟨s, rfl⟩ | rfl <;> simpa
  · rcases intField_cases _ _ _ _ hv h with ⟨n, _, rfl⟩ | rfl <;> simpa
  · rcases strField_cases _ _ _ _ h with ⟨s, rfl⟩ | rfl <;> simpa
  · rcases intField_cases _ _ _ _ hv h with ⟨n, hn, rfl⟩ | rfl <;> simpa
  · cases v with
    | null =>
      simp at h
      exact h ▸ h0
    | arr xs =>
      dsimp only at h
      rcases hmap : xs.mapM unmarshalSubtask with _ | l
      · rw [hmap] at h; simp at h
      · rw [hmap] at h
        simp only [Option.map_some'] at h
        exact (Option.some.inj h) ▸ (by simpa using h0)
    | bool b => simp at h
    | num q => simp at h
    | str s => simp at h
    | obj fs => simp at h
  · exact (Option.some.inj h) ▸ h0

/-- Decoding a compiled-result message whose numbers are all non-negative
yields a non-negative `TotalPoints`. -/
theorem unmarshalSubmissionResult_totalPoints_nonneg (j : Json)
    (r : SubmissionResult) (hj : nonnegNums j = true)
    (h : unmarshalSubmissionResult j = some r) : 0 ≤ r.TotalPoints := by
  cases j <;> simp [unmarshalSubmissionResult, unmarshalJson] at h
  · exact h ▸ (by decide : (0:ℤ) ≤ zeroSubmissionResult.TotalPoints)
  case obj fields =>
    have hf : nonnegFields fields = true := by simpa [nonnegNums] using hj
    exact applyFields_inv setSubmissionResultField (fun x => 0 ≤ x.TotalPoints)
      setSubmissionResultField_totalPoints fields zeroSubmissionResult r hf
      (by decide) h

/-- One decoding step of `setWSMessageField` from a non-negative value
keeps the score non-negative and the data all-non-negative. -/
theorem setWSMessageField_inv (w : WSMessage) (k : String) (v : Json)
    (w2 : WSMessage) (hv : nonnegNums v = true)
    (h : setWSMessageField w k v = some w2)
    (h0 : 0 ≤ w.Score ∧ nonnegNums w.Data = true) :
    0 ≤ w2.Score ∧ nonnegNums w2.Data = true := by
  unfold setWSMessageField at h
  split_ifs at h
  · rcases strField_cases _ _ _ _ h with ⟨s, rfl⟩ | rfl <;> simpa using h0
  · refine (Option.some.inj h) ▸ ⟨by simpa using h0.1, by simpa using hv⟩
  · rcases strField_cases _ _ _ _ h with ⟨s, rfl⟩ | rfl <;> simpa using h0
  · rcases strField_cases _ _ _ _ h with ⟨s, rfl⟩ | rfl <;> simpa using h0
  · rcases intField_cases _ _ _ _ hv h with ⟨n, hn, rfl⟩ | rfl
    · exact ⟨by simpa using hn, by simpa using h0.2⟩
    · exact h0
  · rcases strField_cases _ _ _ _ h with ⟨s, rfl⟩ | rfl <;> simpa using h0
  · rcases strField_cases _ _ _ _ h with ⟨s, rfl⟩ | rfl <;> simpa using h0
  · exact (Option.some.inj h) ▸ h0

/-- Decoding a generic-envelope message whose numbers are all non-negative
yields a non-negative top-level score and an all-non-negative data value. -/
theorem unmarshalWSMessage_inv (j : Json) (w : WSMessage)
    (hj : nonnegNums j = true) (h : unmarshalWSMessage j = some w) :
    0 ≤ w.Score ∧ nonnegNums w.Data = true := by
  cases j <;> simp [unmarshalWSMessage, unmarshalJson] at h
  · exact h ▸ ⟨by decide, by decide⟩
  case obj fields =>
    have hf : nonnegFields fields = true := by simpa [nonnegNums] using hj
    exact applyFields_inv setWSMessageField
      (fun x => 0 ≤ x.Score ∧ nonnegNums x.Data = true)
      setWSMessageField_inv fields zeroWSMessage w hf ⟨by decide, by decide⟩ h

/-- A successful `lookupField` result is a value of the object. -/
theorem lookupField_exists_mem (fields : List (String × Json)) (key : String)
    (v : Json) (h : lookupField fields key = some v) : ∃ k, (k, v) ∈ fields := by
  suffices haux : ∀ (fs : List (String × Json)) (acc : Option Json),
      fs.foldl (fun a kv => if kv.1 = key then some kv.2 else a) acc = some v →
      (∃ k, (k, v) ∈ fs) ∨ acc = some v by
    rcases haux fields none h with hmem | hacc
    · exact hmem
    · simp at hacc
  intro fs
  induction fs with
  | nil => intro acc h2; exact Or.inr h2
  | cons kv rest ih =>
    intro acc h2
    rw [List.foldl_cons] at h2
    rcases ih _ h2 with ⟨k, hk⟩ | hacc
    · exact Or.inl ⟨k, List.mem_cons_of_mem _ hk⟩
    · by_cases hkey : kv.1 = key
      · rw [if_pos hkey] at hacc
        refine Or.inl ⟨kv.1, ?_⟩
        rw [← Option.some.inj hacc]
        simp
      · rw [if_neg hkey] at hacc
        exact Or.inr hacc

/-- `nonnegFields` means every value of the object is all-non-negative. -/
theorem nonnegFields_forall (fields : List (String × Json))
    (h : nonnegFields fields = true) :
    ∀ kv ∈ fields, nonnegNums kv.2 = true := by
  induction fields with
  | nil => intro kv hkv; simp at hkv
  | cons kv0 rest ih =>
    obtain ⟨k, v⟩ := kv0
    intro kv hkv
    simp only [nonnegFields, Bool.and_eq_true] at h
    rcases List.mem_cons.mp hkv with rfl | hmem
    · exact h.1
    · exact ih h.2 kv hmem

/-- The score produced by `parseStatusMessage`: the truncated `data.score`
when it is a number, the top-level score otherwise. -/
theorem parseStatusMessage_score (w : WSMessage) :
    (parseStatusMessage w).Score =
      match w.Data with
      | Json.obj fields =>
        match lookupField fields "score" with
        | some (Json.num q) => truncRat q
        | _ => w.Score
      | _ => w.Score := by
  unfold parseStatusMessage
  cases w.Data <;> dsimp only <;> split <;> rfl

/-- `parseStatusMessage` keeps the score non-negative when the envelope's
score and every number inside data are non-negative. -/
theorem parseStatusMessage_score_nonneg (w : WSMessage)
    (h0 : 0 ≤ w.Score) (hD : nonnegNums w.Data = true) :
    0 ≤ (parseStatusMessage w).Score := by
  rw [parseStatusMessage_score]
  cases hData : w.Data <;> simp [h0]
  case obj fields =>
    rcases hl : lookupField fields "score" with _ | v
    · simpa using h0
    · cases v <;> simp [h0]
      case num q =>
        obtain ⟨k, hk⟩ := lookupField_exists_mem fields "score" _ hl
        have hfields : nonnegFields fields = true := by
          rw [hData] at hD; simpa [nonnegNums] using hD
        have hq : nonnegNums (Json.num q) = true :=
          nonnegFields_forall fields hfields (k, Json.num q) hk
        exact truncRat_nonneg q (by simpa [nonnegNums] using hq)

/-- C8 (counterexample is `normalize_can_produce_negative_score`).
Amended: every record the normalizer produces has a non-negative score
provided every number in the incoming message is non-negative (the code
passes the server's points through unclamped, so a negative input
propagates); and a message carrying no score information at all yields the
default score 0. -/
theorem normalize_score_nonneg_for_nonneg_inputs (j : Json)
    (st : SubmissionStatus) (hj : nonnegNums j = true)
    (hp : parseWebSocketMessage (some j) = Except.ok st) :
    0 ≤ st.Score
    ∧ parseWebSocketMessage (some (Json.obj []))
        = Except.ok { ID := "current", Status := "compilation_error",
                      Result := "", Score := 0, Time := "", Memory := "" } := by
  refine ⟨?_, rfl⟩
  rcases hSR : unmarshalSubmissionResult j with _ | r
  · rcases hWS : unmarshalWSMessage j with _ | w
    · simp [parseWebSocketMessage, hSR, hWS] at hp
    · simp only [parseWebSocketMessage, hSR, hWS, Except.ok.injEq] at hp
      obtain ⟨hs, hd⟩ := unmarshalWSMessage_inv j w hj hWS
      exact hp ▸ parseStatusMessage_score_nonneg w hs hd
  · simp only [parseWebSocketMessage, hSR, Except.ok.injEq] at hp
    have hr := unmarshalSubmissionResult_totalPoints_nonneg j r hj hSR
    rw [← hp]
    simpa [convertResultToStatus] using hr

/-- Witness for C8 (amended) at a concrete 42-point compiled message. -/
theorem normalize_score_nonneg_for_nonneg_inputs_instance :
    0 ≤ ({ ID := "current", Status := "partial", Result := "", Score := 42,
           Time := "", Memory := "" } : SubmissionStatus).Score
    ∧ parseWebSocketMessage (some (Json.obj []))
        = Except.ok { ID := "current", Status := "compilation_error",
                      Result := "", Score := 0, Time := "", Memory := "" } :=
  normalize_score_nonneg_for_nonneg_inputs
    (Json.obj [("compiled", Json.bool true), ("total_points", Json.num 42)])
    { ID := "current", Status := "partial", Result := "", Score := 42,
      Time := "", Memory := "" }
    (by decide) rfl

end SortMe
